import Mathlib

/-!
Verification of the marker-extraction pipeline of `roadsideamerica.py`.

The script fetches one attractions page per region, locates `<script>`
blocks, parses each block's JavaScript with `pyjsparser` (an esprima
port that returns nested Python dicts/lists), walks the resulting tree
for `CallExpression` nodes (`get_calls`), keeps the calls whose callee
name is `addMarkerById`, reads marker fields from the call arguments
(`parse_marker_args`), and finally turns each marker into a GPX
waypoint whose description URL is built with `tristrip`.

The embedding below models the pyjsparser output as a generic
JSON-like tree (`JValue`), Python exceptions as an explicit `Err`
type propagated through `Except`, and every relevant source function
as an executable Lean definition with the shape of the Python code.
`JFields` / `JItems` are the dict-field list and the array-item list,
declared mutually with `JValue` so that all recursive definitions are
structural (and hence evaluate by `rfl` / `decide`).
-/

mutual

/-- A pyjsparser AST value: a Python scalar, dict, or list.  Numeric
literal payloads are opaque to the tool (they are never computed with,
only copied), so an `Int` payload stands in for Python's float. -/
inductive JValue where
  | str (s : String)
  | num (n : Int)
  | bool (b : Bool)
  | null
  | obj (fields : JFields)
  | arr (items : JItems)

/-- Field list of a dict node, in Python dict insertion order. -/
inductive JFields where
  | nil
  | cons (key : String) (val : JValue) (rest : JFields)

/-- Item list of an array node. -/
inductive JItems where
  | nil
  | cons (head : JValue) (rest : JItems)

end

/-- Errors a run can stop with.  The first three model the Python
exceptions that the extraction code can raise (`IndexError` from
`args[i]`, `KeyError` from `obj[k]`, `TypeError` from subscripting a
non-container); `parse` models a `pyjsparser` syntax error propagating
out of `pyjsparser.parse`; `noMarkers` models the
`raise KeyError("No js scripts found")` in `main` when no script block
yielded a marker.  `malformedMarker` is modelled from the spec: the
spec's `MalformedMarkerError`; no code in the repository ever raises
it, the constructor exists only so that statements can mention it. -/
inductive ParseErr where
  | mk (msg : String)
deriving DecidableEq

inductive Err where
  | indexError
  | keyError
  | typeError
  | parse (e : ParseErr)
  | noMarkers
  | malformedMarker
deriving DecidableEq

/-- One extracted marker record, the dict built by `parse_marker_args`. -/
structure Pin where
  uid : JValue
  longitude : JValue
  latitude : JValue
  name : JValue

/-- Python dict lookup restricted to string keys: first matching key
wins (keys of a Python dict are unique, so this is exact). -/
def jlookup : JFields → String → Option JValue
  | .nil, _ => none
  | .cons k v rest, key => if k = key then some v else jlookup rest key

/-- Python subscript `obj[k]` with a string key: `KeyError` when the
dict lacks the key, `TypeError` when the value is not a dict. -/
def getField : JValue → String → Except Err JValue
  | .obj fs, k =>
    match jlookup fs k with
    | some v => .ok v
    | none => .error .keyError
  | _, _ => .error .typeError

/-- Length of an array node's item list. -/
def JItems.length : JItems → Nat
  | .nil => 0
  | .cons _ rest => 1 + rest.length

/-- Item at index `i`, if present. -/
def JItems.get? : JItems → Nat → Option JValue
  | .nil, _ => none
  | .cons v _, 0 => some v
  | .cons _ rest, n + 1 => rest.get? n

/-- Python subscript `args[i]` on a list: `IndexError` out of range. -/
def pyIndex (args : JItems) (i : Nat) : Except Err JValue :=
  match args.get? i with
  | some v => .ok v
  | none => .error .indexError

/-- Python `v == "s"`: true exactly when `v` is that string. -/
def JValue.isStr : JValue → String → Bool
  | .str t, s => t = s
  | _, _ => false

/-- `parse_marker_args` (roadsideamerica.py lines 70-81): index the
argument list at positions 0, 2, 3, 4 (the dict literal evaluates the
four subscripts in this order, so the first missing position raises
`IndexError`), then read each node's "value" entry in insertion order
(uid, longitude, latitude, name). -/
def parseMarkerArgs (args : JItems) : Except Err Pin := do
  let a0 ← pyIndex args 0
  let a2 ← pyIndex args 2
  let a3 ← pyIndex args 3
  let a4 ← pyIndex args 4
  let uid ← getField a0 "value"
  let longitude ← getField a2 "value"
  let latitude ← getField a3 "value"
  let name ← getField a4 "value"
  pure { uid := uid, longitude := longitude, latitude := latitude, name := name }

mutual

/-- The extraction loop of `main` (lines 134-137) fused with the
generator `get_calls` (lines 84-95), which is consumed lazily, so each
yielded call is processed before traversal continues.  `get_calls`
yields a dict when `obj["type"] == "CallExpression"` and otherwise
recurses into all dict values (insertion order) and list items; note
that it does not recurse into the children of a call expression.  For
each yielded call, `main` evaluates `call["callee"]["name"]` and, on a
match with "addMarkerById", runs `parse_marker_args(call["arguments"])`.
Any Python exception raised on the way aborts the whole run, which the
`Except` propagation models.  (One shortcut: when "arguments" is not a
list the model raises `typeError` directly instead of inside
`parse_marker_args`; pyjsparser always emits a list there.) -/
def extractMarkers : JValue → Except Err (List Pin)
  | .obj fs =>
    match jlookup fs "type" with
    | none => .error .keyError
    | some t =>
      if t.isStr "CallExpression" then
        match jlookup fs "callee" with
        | none => .error .keyError
        | some callee =>
          match getField callee "name" with
          | .error e => .error e
          | .ok nm =>
            if nm.isStr "addMarkerById" then
              match jlookup fs "arguments" with
              | none => .error .keyError
              | some (.arr args) =>
                match parseMarkerArgs args with
                | .ok p => .ok [p]
                | .error e => .error e
              | some _ => .error .typeError
            else .ok []
      else extractFields fs
  | .arr xs => extractItems xs
  | _ => .ok []

def extractFields : JFields → Except Err (List Pin)
  | .nil => .ok []
  | .cons _ v rest =>
    match extractMarkers v with
    | .error e => .error e
    | .ok a =>
      match extractFields rest with
      | .error e => .error e
      | .ok b => .ok (a ++ b)

def extractItems : JItems → Except Err (List Pin)
  | .nil => .ok []
  | .cons v rest =>
    match extractMarkers v with
    | .error e => .error e
    | .ok a =>
      match extractItems rest with
      | .error e => .error e
      | .ok b => .ok (a ++ b)

end

/-- An esprima `Literal` node as pyjsparser emits it: type, value, raw. -/
def mkLit (v raw : JValue) : JValue :=
  .obj (.cons "type" (.str "Literal") (.cons "value" v (.cons "raw" raw .nil)))

/-- An esprima `Identifier` node. -/
def mkIdent (s : String) : JValue :=
  .obj (.cons "type" (.str "Identifier") (.cons "name" (.str s) .nil))

/-- A `CallExpression` node with the given callee and argument items. -/
def mkCall (callee : JValue) (args : JItems) : JValue :=
  .obj (.cons "type" (.str "CallExpression")
    (.cons "callee" callee (.cons "arguments" (.arr args) .nil)))

/-! ## The script locator and the per-run loop

`main` (lines 117-148) iterates the regions; per region it fetches the
page (fetching and markup parsing belong to external collaborators, so
a page enters the model as its list of script blocks in document
order, each block given by its `pyjsparser.parse` outcome), scans the
blocks in order, breaks at the first block whose extraction appended
at least one pin, raises when no block yielded pins, and extends the
global pin list. -/

/-- One script block, represented by the outcome of
`pyjsparser.parse` on its source text (the parser is an external
dependency; a syntactically invalid block is an `Except.error`). -/
def Block : Type := Except ParseErr JValue

/-- The `for script in scripts` loop of `main` (lines 130-140): parse
the block (a raised `JsSyntaxError` propagates and aborts, there is no
try/except), extract, and break as soon as the accumulated
`region_pins` list is nonempty. -/
def scanBlocks : List Block → Except Err (List Pin)
  | [] => .ok []
  | b :: rest =>
    match b with
    | .error pe => .error (.parse pe)
    | .ok tree =>
      match extractMarkers tree with
      | .error e => .error e
      | .ok pins => if pins.isEmpty then scanBlocks rest else .ok pins

/-- Lines 130-143: scan the page's blocks, then
`if not region_pins: raise KeyError("No js scripts found")`. -/
def regionPins (blocks : List Block) : Except Err (List Pin) :=
  match scanBlocks blocks with
  | .error e => .error e
  | .ok pins => if pins.isEmpty then .error .noMarkers else .ok pins

/-- Lines 117-145: the `pins` accumulator extended with each region's
pins, in region order; any raised exception aborts the run. -/
def runPins : List (List Block) → Except Err (List Pin)
  | [] => .ok []
  | page :: rest =>
    match regionPins page with
    | .error e => .error e
    | .ok a =>
      match runPins rest with
      | .error e => .error e
      | .ok b => .ok (a ++ b)

/-- Lines 147-148: `if i != len(regions): time.sleep(1)` runs once per
loop iteration `i ∈ [0, n)`; this counts how many iterations sleep. -/
def sleepCount (n : Nat) : Nat :=
  ((List.range n).filter (fun i => i ≠ n)).length

/-! ## The waypoint assembler -/

/-- Python's `str.strip()` whitespace: every character `str.isspace()`
accepts, i.e. all Unicode whitespace — the ASCII run TAB..CR and
space, the separators U+1C..U+1F, NEL U+85, NBSP U+A0, OGHAM space
U+1680, the U+2000..U+200A spaces, the line/paragraph separators
U+2028/U+2029, NNBSP U+202F, MMSP U+205F, and the ideographic space
U+3000. -/
def isPyWS (c : Char) : Bool :=
  c = ' ' || ('\u0009' ≤ c && c ≤ '\u000d')
    || ('\u001c' ≤ c && c ≤ '\u001f') || c = '\u0085' || c = '\u00a0'
    || c = '\u1680' || ('\u2000' ≤ c && c ≤ '\u200a')
    || c = '\u2028' || c = '\u2029' || c = '\u202f' || c = '\u205f'
    || c = '\u3000'

/-- Space or tab: the only characters `textwrap.dedent` treats as
indentation (its regexes use the class of space and tab). -/
def isSpaceTab (c : Char) : Bool :=
  c = ' ' || c = '\t'

/-- Split a character list at every newline, keeping empty pieces,
exactly as Python's multiline regexes delimit lines. -/
def splitNL : List Char → List (List Char)
  | [] => [[]]
  | c :: rest =>
    if c = '\n' then [] :: splitNL rest
    else
      match splitNL rest with
      | [] => [[c]]
      | l :: ls => (c :: l) :: ls

/-- Rejoin lines with newlines (inverse of `splitNL`). -/
def joinNL : List (List Char) → List Char
  | [] => []
  | [l] => l
  | l :: ls => l ++ '\n' :: joinNL ls

/-- A line that `textwrap.dedent`'s `_whitespace_only_re` blanks:
nonempty and consisting solely of spaces and tabs. -/
def isBlankLine (l : List Char) : Bool :=
  !l.isEmpty && l.all isSpaceTab

/-- The space-and-tab indent prefix of a line
(`_leading_whitespace_re`'s capture). -/
def indentOf (l : List Char) : List Char :=
  l.takeWhile isSpaceTab

/-- Longest common prefix of two character lists; `textwrap.dedent`'s
margin loop computes exactly this across the collected indents. -/
def commonStart : List Char → List Char → List Char
  | x :: xs, y :: ys => if x = y then x :: commonStart xs ys else []
  | _, _ => []

/-- The normalization `textwrap.dedent`'s `_whitespace_only_re.sub`
applies line by line: whitespace-only lines become empty. -/
def blankLine (l : List Char) : List Char :=
  if isBlankLine l then [] else l

/-- The margin `textwrap.dedent` computes: the longest common
space/tab prefix of the indents of the nonempty (post-blanking)
lines. -/
def marginOf (lines : List (List Char)) : List Char :=
  match (lines.filter (fun l => !l.isEmpty)).map indentOf with
  | [] => []
  | i :: rest => rest.foldl commonStart i

/-- The margin removal `re.sub(r'(?m)^' + margin, '', text)` applies
line by line: lines starting with the margin lose it. -/
def removeMargin (margin : List Char) (l : List Char) : List Char :=
  if margin.isPrefixOf l then l.drop margin.length else l

/-- `textwrap.dedent`: blank the whitespace-only lines, compute the
common space/tab margin of the remaining nonempty lines, and remove
that margin from every line that starts with it. -/
def dedentChars (text : List Char) : List Char :=
  joinNL (((splitNL text).map blankLine).map
    (removeMargin (marginOf ((splitNL text).map blankLine))))

/-- Python's `str.strip()`: drop whitespace from both ends. -/
def stripChars (l : List Char) : List Char :=
  ((l.dropWhile isPyWS).reverse.dropWhile isPyWS).reverse

/-- `tristrip` (lines 22-24): `textwrap.dedent(string).strip()`. -/
def tristrip (s : String) : String :=
  String.mk (stripChars (dedentChars s.data))

/-- Python `str(v)` as the f-string interpolation applies it to the
uid payload.  Extracted uids are literal payloads, i.e. scalars; the
dict/list branches are never hit by data the tool produces and carry a
placeholder rendering. -/
def pyStr : JValue → String
  | .str s => s
  | .num n => toString n
  | .bool b => if b then "True" else "False"
  | .null => "None"
  | .obj _ => "<dict>"
  | .arr _ => "<list>"

/-- One GPX waypoint as `main` fills it (lines 155-166). -/
structure Waypoint where
  longitude : JValue
  latitude : JValue
  name : JValue
  description : String

/-- The f-string of lines 160-164: a newline, sixteen spaces of
indentation, the URL with the interpolated uid, a newline, and the
twelve spaces before the closing quotes. -/
def descriptionSource (uid : JValue) : String :=
  "\n                https://www.roadsideamerica.com/tip/" ++ pyStr uid
    ++ "\n            "

/-- Lines 155-166: one waypoint per pin; the description is the
`tristrip`-ped f-string built from the pin's uid. -/
def mkWaypoint (pin : Pin) : Waypoint :=
  { longitude := pin.longitude
    latitude := pin.latitude
    name := pin.name
    description := tristrip (descriptionSource pin.uid) }

/-- Lines 153-166: the full waypoint collection of a run, one waypoint
appended per extracted pin, in pin order. -/
def runWaypoints (pages : List (List Block)) : Except Err (List Waypoint) :=
  match runPins pages with
  | .error e => .error e
  | .ok pins => .ok (pins.map mkWaypoint)

/-- The characters of the fixed URL prefix of every description. -/
def urlChars : List Char := "https://www.roadsideamerica.com/tip/".data

/-- The sixteen spaces indenting the URL line of the f-string. -/
def indentChars : List Char := "                ".data

/-- The twelve spaces before the f-string's closing quotes. -/
def closeChars : List Char := "            ".data

/-! ## Spec-side description of the extraction

The following definitions follow the spec's words, for comparison with
the code: a node matches when its kind is "call expression" and its
callee's identifier name equals the target exactly; for a matching
call the four record fields take the value payloads of the literal
nodes at argument positions 0, 2, 3, 4; matches are collected in
depth-first pre-order.  Because the code's traversal never descends
into the children of a call expression, the collection below also
stops at call-expression nodes: it lists the matching calls that are
not nested inside any other call expression. -/

/-- Does this dict node have kind "call expression"? -/
def typeIsCall (fs : JFields) : Bool :=
  match jlookup fs "type" with
  | some t => t.isStr "CallExpression"
  | none => false

/-- Does the node's callee carry the target identifier name? -/
def calleeIsTarget (fs : JFields) : Bool :=
  match jlookup fs "callee" with
  | some (.obj cf) =>
    match jlookup cf "name" with
    | some nm => nm.isStr "addMarkerById"
    | none => false
  | _ => false

/-- The value payload of a literal node, when the argument is one. -/
def litValue : JValue → Option JValue
  | .obj fs =>
    match jlookup fs "type" with
    | some t => if t.isStr "Literal" then jlookup fs "value" else none
    | _ => none
  | _ => none

/-- The marker record the spec prescribes for an argument list: the
literal payloads at positions 0, 2, 3, 4, or nothing when any of the
four positions is absent or not a literal. -/
def specPinOf (args : JItems) : Option Pin := do
  let uid ← args.get? 0 >>= litValue
  let longitude ← args.get? 2 >>= litValue
  let latitude ← args.get? 3 >>= litValue
  let name ← args.get? 4 >>= litValue
  pure { uid := uid, longitude := longitude, latitude := latitude, name := name }

mutual

/-- Argument lists of the matching calls that the traversal reaches
(those not nested inside another call expression), in depth-first
pre-order; dict children in insertion order. -/
def outerCallArgs : JValue → List JItems
  | .obj fs =>
    if typeIsCall fs then
      if calleeIsTarget fs then
        match jlookup fs "arguments" with
        | some (.arr args) => [args]
        | _ => []
      else []
    else outerCallArgsF fs
  | .arr xs => outerCallArgsI xs
  | _ => []

def outerCallArgsF : JFields → List JItems
  | .nil => []
  | .cons _ v rest => outerCallArgs v ++ outerCallArgsF rest

def outerCallArgsI : JItems → List JItems
  | .nil => []
  | .cons v rest => outerCallArgs v ++ outerCallArgsI rest

end

mutual

/-- The number of calls to the target function appearing anywhere in
the tree, at any nesting depth (also inside other call expressions). -/
def countTargetCalls : JValue → Nat
  | .obj fs =>
    (if typeIsCall fs && calleeIsTarget fs then 1 else 0) + countTargetCallsF fs
  | .arr xs => countTargetCallsI xs
  | _ => 0

def countTargetCallsF : JFields → Nat
  | .nil => 0
  | .cons _ v rest => countTargetCalls v + countTargetCallsF rest

def countTargetCallsI : JItems → Nat
  | .nil => 0
  | .cons v rest => countTargetCalls v + countTargetCallsI rest

end

mutual

/-- Scan well-formedness: the conditions under which the code's walk
of the tree raises no Python exception.  Every dict node the walk
visits must carry a "type" entry; every visited call expression must
have a callee that is a dict with a "name" entry; and a call to the
target must carry an argument array with literal nodes at positions
0, 2, 3, 4.  (The walk stops at call expressions, so nodes nested
inside them are unconstrained.) -/
def scanWF : JValue → Bool
  | .obj fs =>
    match jlookup fs "type" with
    | none => false
    | some t =>
      if t.isStr "CallExpression" then
        match jlookup fs "callee" with
        | none => false
        | some callee =>
          match getField callee "name" with
          | .error _ => false
          | .ok nm =>
            if nm.isStr "addMarkerById" then
              match jlookup fs "arguments" with
              | some (.arr args) => (specPinOf args).isSome
              | _ => false
            else true
      else scanWFF fs
  | .arr xs => scanWFI xs
  | _ => true

def scanWFF : JFields → Bool
  | .nil => true
  | .cons _ v rest => scanWF v && scanWFF rest

def scanWFI : JItems → Bool
  | .nil => true
  | .cons v rest => scanWF v && scanWFI rest

end

/-! ## Concrete script fixtures, shaped as pyjsparser shapes them -/

/-- An ExpressionStatement node wrapping an expression. -/
def exprStmt (e : JValue) : JValue :=
  .obj (.cons "type" (.str "ExpressionStatement") (.cons "expression" e .nil))

/-- A Program root node with the given statement list. -/
def program1 (stmts : JItems) : JValue :=
  .obj (.cons "type" (.str "Program") (.cons "body" (.arr stmts) .nil))

/-- Argument items of a well-formed marker call: uid, null, longitude,
latitude, display name, the coordinate and name payloads as string
literals exactly as the site's pages carry them. -/
def markerArgs (uid lon lat nm : String) : JItems :=
  .cons (mkLit (.str uid) (.str uid)) (.cons (mkLit .null (.str "null"))
    (.cons (mkLit (.str lon) (.str lon)) (.cons (mkLit (.str lat) (.str lat))
      (.cons (mkLit (.str nm) (.str nm)) .nil))))

/-- The pin such a call extracts to. -/
def markerPin (uid lon lat nm : String) : Pin :=
  { uid := .str uid, longitude := .str lon, latitude := .str lat, name := .str nm }

/-- A complete `addMarkerById` call. -/
def markerCall (uid lon lat nm : String) : JValue :=
  mkCall (mkIdent "addMarkerById") (markerArgs uid lon lat nm)

/-- A script whose only marker call sits inside the argument list of a
surrounding non-target call. -/
def nestedScriptA : JValue :=
  program1 (.cons (exprStmt (mkCall (mkIdent "setup")
    (.cons (markerCall "11" "-71.1" "42.1" "A") .nil))) .nil)

/-- A second nested-call script, with different payloads. -/
def nestedScriptB : JValue :=
  program1 (.cons (exprStmt (mkCall (mkIdent "when")
    (.cons (markerCall "22" "-71.2" "42.2" "B") .nil))) .nil)

/-- A script whose single marker call carries only two arguments. -/
def shortCallScript : JValue :=
  program1 (.cons (exprStmt (mkCall (mkIdent "addMarkerById")
    (.cons (mkLit (.str "33") (.str "33"))
      (.cons (mkLit .null (.str "null")) .nil)))) .nil)

/-- A script with one method call `console.log()`: a call expression
whose callee is a MemberExpression node, which carries no name. -/
def methodCallScript : JValue :=
  program1 (.cons (exprStmt (mkCall
    (.obj (.cons "type" (.str "MemberExpression") (.cons "computed" (.bool false)
      (.cons "object" (mkIdent "console") (.cons "property" (mkIdent "log") .nil)))))
    .nil)) .nil)

/-- A script with no call expressions at all. -/
def emptyScript : JValue := program1 .nil

/-- A script with one plain non-target call. -/
def plainCallScript : JValue :=
  program1 (.cons (exprStmt (mkCall (mkIdent "initMap")
    (.cons (mkLit (.num 1) (.str "1")) .nil))) .nil)

/-- A one-marker script with the given payloads. -/
def goodScript (uid lon lat nm : String) : JValue :=
  program1 (.cons (exprStmt (markerCall uid lon lat nm)) .nil)

/-! ## Code-vs-spec agreement lemmas -/

/-- Unfolding lemma for `Except` bind on a success value. -/
theorem except_bind_ok {ε α β : Type} (a : α) (f : α → Except ε β) :
    (Except.ok a >>= f : Except ε β) = f a := rfl

/-- Unfolding lemma for `Except` map on a success value. -/
theorem except_map_ok {ε α β : Type} (f : α → β) (a : α) :
    (f <$> (Except.ok a : Except ε α)) = Except.ok (f a) := rfl

/-- A successful `["name"]` access means the callee was a dict whose
"name" entry held the result. -/
theorem getField_ok_iff {c : JValue} {k : String} {nm : JValue} :
    getField c k = .ok nm ↔ ∃ cf, c = .obj cf ∧ jlookup cf k = some nm := by
  constructor
  · intro h
    cases c <;> simp only [getField] at h <;> try exact Except.noConfusion h
    case obj cf =>
      split at h
      next v heq =>
        obtain rfl : v = nm := by simpa using h
        exact ⟨cf, rfl, heq⟩
      next => exact Except.noConfusion h
  · rintro ⟨cf, rfl, hL⟩
    simp [getField, hL]

/-- A literal node's payload is what `obj["value"]` returns. -/
theorem getField_value_of_litValue {a u : JValue} (h : litValue a = some u) :
    getField a "value" = .ok u := by
  cases a <;> simp only [litValue] at h <;> try exact Option.noConfusion h
  case obj fs =>
    split at h
    · split at h
      · simp [getField, h]
      · exact Option.noConfusion h
    · exact Option.noConfusion h

/-- When the spec's field-extraction rule produces a record,
`parse_marker_args` returns exactly that record. -/
theorem parseMarkerArgs_of_specPin {args : JItems} {p : Pin}
    (h : specPinOf args = some p) : parseMarkerArgs args = .ok p := by
  simp only [specPinOf, Option.bind_eq_some, bind, Option.bind_eq_some] at h
  obtain ⟨uid, ⟨a0, h0, hv0⟩, lon, ⟨a2, h2, hv2⟩, lat, ⟨a3, h3, hv3⟩,
    nm, ⟨a4, h4, hv4⟩, hp⟩ := h
  simp only [parseMarkerArgs, pyIndex, h0, h2, h3, h4, except_bind_ok,
    getField_value_of_litValue hv0, getField_value_of_litValue hv2,
    getField_value_of_litValue hv3, getField_value_of_litValue hv4,
    except_map_ok, Except.ok.injEq]
  exact congrArg Except.ok (by simpa using hp)

mutual

/-- On a scan-well-formed tree the extraction loop raises nothing and
returns exactly the records the spec's rules prescribe, one per
reachable matching call, in depth-first pre-order. -/
theorem extract_spec (v : JValue) (h : scanWF v = true) :
    extractMarkers v = .ok ((outerCallArgs v).filterMap specPinOf) := by
  cases v with
  | str s => simp [extractMarkers, outerCallArgs]
  | num n => simp [extractMarkers, outerCallArgs]
  | bool b => simp [extractMarkers, outerCallArgs]
  | null => simp [extractMarkers, outerCallArgs]
  | arr xs =>
    rw [scanWF] at h
    rw [extractMarkers, outerCallArgs]
    exact extract_specI xs h
  | obj fs =>
    rw [scanWF] at h
    rw [extractMarkers, outerCallArgs, typeIsCall]
    cases hT : jlookup fs "type" with
    | none => simp [hT] at h
    | some t =>
      simp only [hT] at h ⊢
      by_cases hC : t.isStr "CallExpression" = true
      · simp only [hC, if_true] at h ⊢
        cases hCal : jlookup fs "callee" with
        | none => simp [hCal] at h
        | some callee =>
          simp only [hCal] at h
          cases hNm : getField callee "name" with
          | error e => simp [hNm] at h
          | ok nm =>
            simp only [hNm] at h
            obtain ⟨cf, rfl, hLk⟩ := getField_ok_iff.mp hNm
            have hTar : calleeIsTarget fs = nm.isStr "addMarkerById" := by
              simp [calleeIsTarget, hCal, hLk]
            by_cases hM : nm.isStr "addMarkerById" = true
            · simp only [hM, if_true] at h
              cases hA : jlookup fs "arguments" with
              | none => simp [hA] at h
              | some av =>
                simp only [hA] at h
                cases av with
                | arr args =>
                  obtain ⟨p, hp⟩ := Option.isSome_iff_exists.mp (by simpa using h)
                  simp [hNm, hM, hA, hTar, parseMarkerArgs_of_specPin hp, hp]
                | str s => simp at h
                | num n => simp at h
                | bool b => simp at h
                | null => simp at h
                | obj g => simp at h
            · simp [hNm, hTar, hM]
      · simp only [hC, if_false] at h ⊢
        exact extract_specF fs h

theorem extract_specF (fs : JFields) (h : scanWFF fs = true) :
    extractFields fs = .ok ((outerCallArgsF fs).filterMap specPinOf) := by
  cases fs with
  | nil => simp [extractFields, outerCallArgsF]
  | cons k v rest =>
    rw [scanWFF, Bool.and_eq_true] at h
    rw [extractFields, outerCallArgsF]
    rw [extract_spec v h.1, extract_specF rest h.2]
    simp [List.filterMap_append]

theorem extract_specI (xs : JItems) (h : scanWFI xs = true) :
    extractItems xs = .ok ((outerCallArgsI xs).filterMap specPinOf) := by
  cases xs with
  | nil => simp [extractItems, outerCallArgsI]
  | cons v rest =>
    rw [scanWFI, Bool.and_eq_true] at h
    rw [extractItems, outerCallArgsI]
    rw [extract_spec v h.1, extract_specI rest h.2]
    simp [List.filterMap_append]

end

mutual

/-- A tree with zero target calls anywhere has in particular no
reachable matching call. -/
theorem outer_nil_of_count_zero (v : JValue) (h : countTargetCalls v = 0) :
    outerCallArgs v = [] := by
  cases v with
  | str s => rfl
  | num n => rfl
  | bool b => rfl
  | null => rfl
  | arr xs =>
    rw [countTargetCalls] at h
    rw [outerCallArgs]
    exact outer_nil_of_count_zeroI xs h
  | obj fs =>
    rw [countTargetCalls] at h
    rw [outerCallArgs]
    by_cases hTC : typeIsCall fs = true
    · by_cases hCT : calleeIsTarget fs = true
      · simp [hTC, hCT] at h
      · simp [hTC, hCT]
    · simp only [hTC, if_false]
      simp [hTC] at h
      exact outer_nil_of_count_zeroF fs h

theorem outer_nil_of_count_zeroF (fs : JFields) (h : countTargetCallsF fs = 0) :
    outerCallArgsF fs = [] := by
  cases fs with
  | nil => rfl
  | cons k v rest =>
    rw [countTargetCallsF, Nat.add_eq_zero] at h
    rw [outerCallArgsF, outer_nil_of_count_zero v h.1,
      outer_nil_of_count_zeroF rest h.2]
    rfl

theorem outer_nil_of_count_zeroI (xs : JItems) (h : countTargetCallsI xs = 0) :
    outerCallArgsI xs = [] := by
  cases xs with
  | nil => rfl
  | cons v rest =>
    rw [countTargetCallsI, Nat.add_eq_zero] at h
    rw [outerCallArgsI, outer_nil_of_count_zero v h.1,
      outer_nil_of_count_zeroI rest h.2]
    rfl

end

/-- Script blocks that parse and yield no pins leave the block scan
where it was: the loop moves on to the remaining blocks. -/
theorem scanBlocks_append_of_empty {bs : List Block}
    (h : ∀ x ∈ bs, ∃ t, x = .ok t ∧ extractMarkers t = .ok []) (l : List Block) :
    scanBlocks (bs ++ l) = scanBlocks l := by
  induction bs with
  | nil => rfl
  | cons b rest ih =>
    obtain ⟨t, rfl, ht⟩ := h _ (List.mem_cons_self b rest)
    rw [List.cons_append, scanBlocks]
    simp only [ht, List.isEmpty_nil, if_true]
    exact ih (fun x hx => h x (List.mem_cons_of_mem _ hx))

/-! ## How `tristrip` acts on the description template -/

/-- Splitting a newline-free list yields the single line. -/
theorem splitNL_of_no_nl {l : List Char} (h : '\n' ∉ l) : splitNL l = [l] := by
  induction l with
  | nil => rfl
  | cons c rest ih =>
    rw [splitNL]
    rw [if_neg (by intro hc; exact h (hc ▸ List.mem_cons_self c rest))]
    rw [ih (fun hm => h (List.mem_cons_of_mem c hm))]

/-- Splitting at an explicit newline after a newline-free chunk. -/
theorem splitNL_append_nl {a : List Char} (h : '\n' ∉ a) (b : List Char) :
    splitNL (a ++ '\n' :: b) = a :: splitNL b := by
  induction a with
  | nil => simp [splitNL]
  | cons c rest ih =>
    rw [List.cons_append, splitNL]
    rw [if_neg (by intro hc; exact h (hc ▸ List.mem_cons_self c rest))]
    rw [ih (fun hm => h (List.mem_cons_of_mem c hm))]

/-- `takeWhile` stops exactly at the first failing character. -/
theorem takeWhile_append_stop {p : Char → Bool} {a : List Char}
    (ha : ∀ c ∈ a, p c = true) {d : Char} (hd : p d = false) (t : List Char) :
    (a ++ d :: t).takeWhile p = a := by
  induction a with
  | nil => simp [List.takeWhile, hd]
  | cons c rest ih =>
    rw [List.cons_append, List.takeWhile]
    rw [ha c (List.mem_cons_self c rest)]
    rw [ih (fun x hx => ha x (List.mem_cons_of_mem c hx))]

/-- Any list is a Boolean prefix of itself extended. -/
theorem isPrefixOf_append_self (a b : List Char) : a.isPrefixOf (a ++ b) = true := by
  induction a with
  | nil => simp [List.isPrefixOf]
  | cons c rest ih => simp [List.isPrefixOf, ih]

/-- `dropWhile` is the identity when the head already fails. -/
theorem dropWhile_of_head_false {p : Char → Bool} {l : List Char}
    (h : ∀ c, l.head? = some c → p c = false) : l.dropWhile p = l := by
  cases l with
  | nil => rfl
  | cons c rest => simp [List.dropWhile, h c rfl]

/-- The action of `textwrap.dedent` followed by `strip` on the
description template: with a newline-free interpolated uid that does
not end in whitespace, the result is exactly the URL prefix followed
by the uid. -/
theorem dedent_strip_template (u : List Char) (hnl : '\n' ∉ u)
    (hlast : ∀ c, u.getLast? = some c → isPyWS c = false) :
    stripChars (dedentChars
      ('\n' :: (indentChars ++ urlChars ++ u) ++ '\n' :: closeChars)) =
    urlChars ++ u := by
  have hu : urlChars ++ u = 'h' :: (urlChars.tail ++ u) := by
    conv_lhs => rw [show urlChars = 'h' :: urlChars.tail from by decide]
    rfl
  have hmidnl : '\n' ∉ indentChars ++ urlChars ++ u := by
    intro hm
    rcases List.mem_append.mp hm with hm | hm
    · rcases List.mem_append.mp hm with hm | hm
      · exact absurd hm (by decide)
      · exact absurd hm (by decide)
    · exact hnl hm
  have hlines : splitNL ('\n' :: (indentChars ++ urlChars ++ u) ++ '\n' :: closeChars)
      = [[], indentChars ++ urlChars ++ u, closeChars] := by
    rw [List.cons_append, splitNL, if_pos rfl]
    rw [splitNL_append_nl hmidnl]
    rw [splitNL_of_no_nl (by decide)]
  have hblank : isBlankLine (indentChars ++ urlChars ++ u) = false := by
    have hh : 'h' ∈ indentChars ++ urlChars ++ u := by
      rw [List.append_assoc, hu]
      exact List.mem_append.mpr (Or.inr (List.mem_cons_self _ _))
    have hall2 : (indentChars ++ urlChars ++ u).all isSpaceTab = false := by
      rcases hall : (indentChars ++ urlChars ++ u).all isSpaceTab with _ | _
      · rfl
      · exact absurd (List.all_eq_true.mp hall 'h' hh) (by decide)
    rw [isBlankLine, hall2, Bool.and_false]
  have hindent : indentOf (indentChars ++ urlChars ++ u) = indentChars := by
    rw [indentOf, List.append_assoc, hu]
    exact takeWhile_append_stop (by decide) (by decide) _
  have hne : (indentChars ++ urlChars ++ u).isEmpty = false := by
    rw [List.append_assoc, show indentChars = ' ' :: indentChars.tail from by decide]
    rfl
  have hb2 : blankLine (indentChars ++ urlChars ++ u)
      = indentChars ++ urlChars ++ u := by
    rw [blankLine, hblank]
    rfl
  have hmapped : ([[], indentChars ++ urlChars ++ u, closeChars].map blankLine)
      = [[], indentChars ++ urlChars ++ u, []] := by
    rw [List.map_cons, List.map_cons, List.map_cons, List.map_nil, hb2,
      show blankLine ([] : List Char) = [] from rfl,
      show blankLine closeChars = [] from by decide]
  have hfiltered : ([[], indentChars ++ urlChars ++ u, []] :
      List (List Char)).filter (fun l => !l.isEmpty)
      = [indentChars ++ urlChars ++ u] := by
    rw [List.filter_cons_of_neg (by decide)]
    rw [List.filter_cons_of_pos (by rw [hne]; rfl)]
    rw [List.filter_cons_of_neg (by decide), List.filter_nil]
  have hmargin : marginOf [[], indentChars ++ urlChars ++ u, []] = indentChars := by
    rw [marginOf, hfiltered, List.map_cons, List.map_nil, hindent]
    rfl
  have hremove : ([[], indentChars ++ urlChars ++ u, []].map
      (removeMargin indentChars)) = [[], urlChars ++ u, []] := by
    simp only [List.map_cons, List.map_nil, removeMargin]
    rw [List.append_assoc, isPrefixOf_append_self indentChars (urlChars ++ u)]
    simp [show (indentChars.isPrefixOf ([] : List Char)) = false from by decide,
      List.drop_left]
  have hjoin : joinNL [[], urlChars ++ u, []]
      = '\n' :: ((urlChars ++ u) ++ '\n' :: []) := rfl
  rw [dedentChars, hlines, hmapped, hmargin, hremove, hjoin]
  rw [stripChars, List.dropWhile_cons, if_pos (by decide)]
  rw [hu, List.cons_append, List.dropWhile_cons,
    if_neg (by decide), ← List.cons_append, ← hu]
  rw [show (urlChars ++ u) ++ '\n' :: [] = (urlChars ++ u) ++ ['\n'] from rfl]
  rw [List.reverse_append, List.reverse_append,
    show (['\n'].reverse : List Char) = ['\n'] from rfl, List.cons_append,
    List.nil_append, List.dropWhile_cons, if_pos (by decide)]
  have hback : (u.reverse ++ urlChars.reverse).dropWhile isPyWS
      = u.reverse ++ urlChars.reverse := by
    apply dropWhile_of_head_false
    intro c hc
    cases hu0 : u.reverse with
    | nil =>
      rw [hu0, List.nil_append] at hc
      have h2 : urlChars.reverse.head? = some '/' := by decide
      rw [h2] at hc
      obtain rfl : '/' = c := by simpa using hc
      decide
    | cons d rest =>
      rw [hu0, List.cons_append] at hc
      obtain rfl : d = c := by simpa using hc
      apply hlast
      rw [← List.head?_reverse, hu0]
      rfl
  rw [hback, List.reverse_append, List.reverse_reverse, List.reverse_reverse]

/-- Concatenating runs: the pins of earlier pages precede the pins of
later pages in the accumulator. -/
theorem runPins_append {ps qs : List (List Block)} {as bs : List Pin}
    (hp : runPins ps = .ok as) (hq : runPins qs = .ok bs) :
    runPins (ps ++ qs) = .ok (as ++ bs) := by
  induction ps generalizing as with
  | nil =>
    rw [runPins] at hp
    obtain rfl : as = [] := by simpa using hp.symm
    simpa using hq
  | cons p rest ih =>
    rw [runPins] at hp
    rw [List.cons_append, runPins]
    cases hr : regionPins p with
    | error e => rw [hr] at hp; exact Except.noConfusion hp
    | ok a =>
      rw [hr] at hp
      cases hrest : runPins rest with
      | error e => rw [hrest] at hp; exact Except.noConfusion hp
      | ok b =>
        rw [hrest] at hp
        obtain rfl : as = a ++ b := by simpa using hp.symm
        rw [ih hrest]
        simp

/-! ## Claim theorems -/

/-- The payload a literal node built by `mkLit` yields to the spec's
field-extraction rule. -/
theorem litValue_mkLit (v raw : JValue) : litValue (mkLit v raw) = some v := rfl

/-- C10: for a matched call whose arguments at positions 0, 2, 3, 4
are literal nodes, the extracted record is exactly those four literal
payloads; the argument at position 1 (of any form whatsoever) and all
arguments beyond position 4 are never read, do not affect the record
and cause no error. -/
theorem c10_positions_one_and_past_four_ignored
    (v0 r0 x v2 r2 v3 r3 v4 r4 : JValue) (rest : JItems) :
    parseMarkerArgs (.cons (mkLit v0 r0) (.cons x (.cons (mkLit v2 r2)
      (.cons (mkLit v3 r3) (.cons (mkLit v4 r4) rest)))))
      = .ok { uid := v0, longitude := v2, latitude := v3, name := v4 } := rfl

/-- C3 counterexample: a page whose script holds a target call with
only two arguments makes the run abort with a Python `IndexError`; it
is neither skipped nor reported as the spec's `MalformedMarkerError`. -/
theorem c3_counterexample :
    regionPins [Except.ok shortCallScript] = .error Err.indexError
      ∧ Err.indexError ≠ Err.malformedMarker :=
  ⟨rfl, by decide⟩

/-- C3 amended: a matched call whose argument list has fewer than five
entries (in particular one with only 2 arguments) deterministically
fails extraction with an `IndexError` that aborts the run; no partial
record is ever produced. -/
theorem c3_short_arguments_raise_index_error (args : JItems)
    (h : args.length < 5) : parseMarkerArgs args = .error .indexError := by
  match args with
  | .nil => rfl
  | .cons a .nil => rfl
  | .cons a (.cons b .nil) => rfl
  | .cons a (.cons b (.cons c .nil)) => rfl
  | .cons a (.cons b (.cons c (.cons d .nil))) => rfl
  | .cons a (.cons b (.cons c (.cons d (.cons e rest)))) =>
    exact absurd h (by simp [JItems.length]; omega)

/-- C3 witness: the amended claim at the two-argument call. -/
theorem c3_witness :
    parseMarkerArgs (.cons (mkLit (.str "33") (.str "33"))
      (.cons (mkLit .null (.str "null")) .nil)) = .error .indexError :=
  c3_short_arguments_raise_index_error _ (by decide)

/-- C9: the loop guard `if i != len(regions)` is true for every loop
index `i < n`, so the code sleeps once after every region including
the last: `n` delays for `n` regions, against the claimed `n - 1`
(for a single region the claim demands no delay, the code sleeps
once).  The always-true guard shows the intent was `len(regions) - 1`,
so the code, not the claim, is at fault. -/
theorem c9_sleeps_after_every_region :
    sleepCount 1 = 1 ∧ ∀ n, sleepCount n = n := by
  constructor
  · rfl
  · intro n
    rw [sleepCount]
    rw [List.filter_eq_self.mpr]
    · exact List.length_range n
    · intro a ha
      simpa using Nat.ne_of_lt (List.mem_range.mp ha)

/-- C5 counterexample: a parsed script containing zero calls to the
target function, but one method call whose callee is a
MemberExpression (not a plain identifier): `call["callee"]["name"]`
raises a `KeyError` that aborts the run instead of extraction
yielding the empty sequence. -/
theorem c5_counterexample :
    countTargetCalls methodCallScript = 0
      ∧ extractMarkers methodCallScript = .error Err.keyError :=
  ⟨rfl, rfl⟩

/-- C5 amended: for a script tree in which every visited dict node has
a "type" entry and every visited call expression's callee is a dict
with a "name" entry, if the tree contains zero calls to the target
function then extraction yields the empty list and raises no error. -/
theorem c5_zero_target_calls_yield_nothing (v : JValue)
    (hwf : scanWF v = true) (hzero : countTargetCalls v = 0) :
    extractMarkers v = .ok [] := by
  rw [extract_spec v hwf, outer_nil_of_count_zero v hzero]
  rfl

/-- C5 witness: the amended claim at a script holding one plain
non-target call. -/
theorem c5_witness : extractMarkers plainCallScript = .ok [] :=
  c5_zero_target_calls_yield_nothing plainCallScript rfl rfl

/-- C2 counterexample: a parsed tree with exactly one matching call,
nested as an argument of another call expression; extraction emits no
record for it because `get_calls` yields a call expression without
recursing into its children. -/
theorem c2_counterexample :
    countTargetCalls nestedScriptB = 1
      ∧ extractMarkers nestedScriptB = .ok [] :=
  ⟨rfl, rfl⟩

/-- C2 amended: for every parsed tree in which every scanned dict
node carries a "type" entry, every scanned call expression's callee
carries a "name" entry, and every reachable call to the target
carries an argument array with literal nodes at positions 0, 2, 3, 4
(= the `scanWF` hypothesis), extraction produces one marker record
per matching call expression reachable by the traversal, in
deterministic depth-first pre-order (dict values in insertion order,
then list items) — except that the traversal never descends into the
children of a call expression, so matching calls nested inside
another call expression are not extracted. -/
theorem c2_preorder_markers (v : JValue) (h : scanWF v = true) :
    extractMarkers v = .ok ((outerCallArgs v).filterMap specPinOf) :=
  extract_spec v h

/-- C2 witness: the amended claim at a two-marker script, with the two
records in document order. -/
theorem c2_witness :
    extractMarkers (program1 (.cons (exprStmt (markerCall "1" "-71" "42" "P"))
        (.cons (exprStmt (markerCall "2" "-72" "43" "Q")) .nil)))
      = .ok [markerPin "1" "-71" "42" "P", markerPin "2" "-72" "43" "Q"] :=
  c2_preorder_markers _ rfl

/-- C1 counterexample: a script that parses and contains exactly one
call expression whose callee identifier is the target name, with
literal arguments at positions 0, 2, 3, 4 (the spec's extraction rule
accepts them) — yet extraction yields no record at all, because the
call sits inside another call expression's argument list. -/
theorem c1_counterexample :
    countTargetCalls nestedScriptA = 1
      ∧ specPinOf (markerArgs "11" "-71.1" "42.1" "A")
          = some (markerPin "11" "-71.1" "42.1" "A")
      ∧ extractMarkers nestedScriptA = .ok [] :=
  ⟨rfl, rfl, rfl⟩

/-- C1 amended: for every scan-well-formed script tree whose traversal
reaches exactly one matching call (equivalently, that contains exactly
one matching call not nested inside another call expression) with
literal nodes at argument positions 0, 2, 3, 4, extraction yields
exactly one record whose uid, longitude, latitude and name are those
four literals' value payloads, verbatim. -/
theorem c1_unique_call_unique_marker (v : JValue) (args : JItems)
    (v0 r0 v2 r2 v3 r3 v4 r4 : JValue)
    (hwf : scanWF v = true)
    (houter : outerCallArgs v = [args])
    (h0 : args.get? 0 = some (mkLit v0 r0))
    (h2 : args.get? 2 = some (mkLit v2 r2))
    (h3 : args.get? 3 = some (mkLit v3 r3))
    (h4 : args.get? 4 = some (mkLit v4 r4)) :
    extractMarkers v
      = .ok [{ uid := v0, longitude := v2, latitude := v3, name := v4 }] := by
  rw [extract_spec v hwf, houter]
  have hpin : specPinOf args
      = some { uid := v0, longitude := v2, latitude := v3, name := v4 } := by
    rw [specPinOf, h0, h2, h3, h4]
    rfl
  simp [List.filterMap, hpin]

/-- C1 witness: the amended claim at a concrete one-marker script. -/
theorem c1_witness :
    extractMarkers (goodScript "123" "-71.0" "42.0" "Giant Duck")
      = .ok [{ uid := .str "123", longitude := .str "-71.0",
               latitude := .str "42.0", name := .str "Giant Duck" }] :=
  c1_unique_call_unique_marker _ (markerArgs "123" "-71.0" "42.0" "Giant Duck")
    (.str "123") (.str "123") (.str "-71.0") (.str "-71.0")
    (.str "42.0") (.str "42.0") (.str "Giant Duck") (.str "Giant Duck")
    rfl rfl rfl rfl rfl rfl

/-- C4 counterexample: a page whose first script block fails to parse
and whose second block holds a marker: the run aborts with the parse
error instead of skipping the bad block, even though a later block
would have yielded markers. -/
theorem c4_counterexample :
    regionPins [Except.error (ParseErr.mk "syntax error"),
        Except.ok (goodScript "44" "-71.4" "42.4" "D")]
      = .error (Err.parse (ParseErr.mk "syntax error"))
    ∧ extractMarkers (goodScript "44" "-71.4" "42.4" "D")
      = .ok [markerPin "44" "-71.4" "42.4" "D"] :=
  ⟨rfl, rfl⟩

/-- C4 amended: when the block scan reaches a script block whose
source fails to parse (all earlier blocks parsed and yielded no
marker), the raised parse error aborts the run immediately — the
block is not skipped, and the remaining blocks are never examined. -/
theorem c4_parse_error_aborts (bs : List Block) (pe : ParseErr)
    (rest : List Block)
    (hbs : ∀ x ∈ bs, ∃ u, x = .ok u ∧ extractMarkers u = .ok []) :
    regionPins (bs ++ .error pe :: rest) = .error (.parse pe) := by
  rw [regionPins, scanBlocks_append_of_empty hbs]
  rfl

/-- C4 witness: the amended claim on a page with one yield-free block
before the unparsable one. -/
theorem c4_witness :
    regionPins ([Except.ok emptyScript]
        ++ Except.error (ParseErr.mk "bad") :: [Except.ok emptyScript])
      = .error (.parse (ParseErr.mk "bad")) :=
  c4_parse_error_aborts [Except.ok emptyScript] (ParseErr.mk "bad")
    [Except.ok emptyScript]
    (by
      intro x hx
      rw [List.mem_singleton] at hx
      exact ⟨emptyScript, hx, rfl⟩)

/-- C6: the block scan walks the page's script blocks in forward
document order and stops at the first block that yields at least one
marker, returning exactly that block's markers; the conclusion holds
for every tail `rest`, so blocks after the first yielding block are
never parsed or extracted (the result cannot depend on them). -/
theorem c6_first_yielding_block_wins (bs : List Block) (t : JValue)
    (pins : List Pin) (rest : List Block)
    (hbs : ∀ x ∈ bs, ∃ u, x = .ok u ∧ extractMarkers u = .ok [])
    (ht : extractMarkers t = .ok pins) (hne : pins ≠ []) :
    regionPins (bs ++ .ok t :: rest) = .ok pins := by
  cases pins with
  | nil => exact absurd rfl hne
  | cons p ps =>
    rw [regionPins, scanBlocks_append_of_empty hbs]
    simp [scanBlocks, ht]

/-- C6 witness: a yield-free first block, a yielding second block, and
an unparsable third block that the scan never reaches. -/
theorem c6_witness :
    regionPins ([Except.ok emptyScript]
        ++ Except.ok (goodScript "66" "-71.6" "42.6" "F")
          :: [Except.error (ParseErr.mk "never parsed")])
      = .ok [markerPin "66" "-71.6" "42.6" "F"] :=
  c6_first_yielding_block_wins [Except.ok emptyScript] _ _ _
    (by
      intro x hx
      rw [List.mem_singleton] at hx
      exact ⟨emptyScript, hx, rfl⟩)
    rfl
    (List.cons_ne_nil _ _)

/-- C8: runs concatenate region results in region order — every pin of
the earlier pages precedes every pin of the later pages — and the
final collection is exactly one waypoint per pin, each produced once
by `mkWaypoint` from its pin, in pin order. -/
theorem c8_region_order_preserved (ps qs : List (List Block))
    (as bs : List Pin)
    (hp : runPins ps = .ok as) (hq : runPins qs = .ok bs) :
    runWaypoints (ps ++ qs)
      = .ok (as.map mkWaypoint ++ bs.map mkWaypoint) := by
  rw [runWaypoints, runPins_append hp hq, ← List.map_append]

/-- C8 witness: a CA-style page followed by a NY-style page; the CA
waypoint precedes the NY waypoint. -/
theorem c8_witness :
    runWaypoints ([[Except.ok (goodScript "CA1" "-116.9" "33.9" "Cabazon Dinosaurs")]]
        ++ [[Except.ok (goodScript "NY1" "-72.5" "40.9" "Big Duck")]])
      = .ok ([markerPin "CA1" "-116.9" "33.9" "Cabazon Dinosaurs"].map mkWaypoint
          ++ [markerPin "NY1" "-72.5" "40.9" "Big Duck"].map mkWaypoint) :=
  c8_region_order_preserved _ _ _ _ rfl rfl

/-- String append acts on the underlying character lists. -/
theorem string_data_append (s t : String) : (s ++ t).data = s.data ++ t.data := rfl

/-- C7 counterexample: a uid ending in a space.  The claim demands
description `https://www.roadsideamerica.com/tip/duck ` (with the
trailing space of the uid kept), but `tristrip` strips it. -/
theorem c7_counterexample :
    (mkWaypoint { uid := .str "duck ", longitude := .str "-71.0",
                  latitude := .str "42.0", name := .str "Duck" }).description
      ≠ "https://www.roadsideamerica.com/tip/duck " := by decide

/-- C7 amended: for every marker record whose uid string contains no
newline and does not end in whitespace — whitespace in Python's
`str.strip()` sense, i.e. any Unicode whitespace character, which is
what `isPyWS` decides — the waypoint's description is exactly
`https://www.roadsideamerica.com/tip/<uid>`, with no leading or
trailing whitespace; a uid that ends in whitespace or spans lines is
instead rewritten by the dedent-and-strip normalization (all uids the
site serves are plain ASCII slugs, which satisfy the hypotheses). -/
theorem c7_description_is_stripped_url (u : String) (lon lat nm : JValue)
    (hnl : '\n' ∉ u.data)
    (hlast : ∀ c, u.data.getLast? = some c → isPyWS c = false) :
    (mkWaypoint { uid := .str u, longitude := lon, latitude := lat,
                  name := nm }).description
      = "https://www.roadsideamerica.com/tip/" ++ u := by
  have hsrc : (descriptionSource (.str u)).data
      = '\n' :: (indentChars ++ urlChars ++ u.data) ++ '\n' :: closeChars := by
    show (("\n                https://www.roadsideamerica.com/tip/" ++ u)
      ++ "\n            ").data = _
    rw [string_data_append, string_data_append]
    rw [show ("\n                https://www.roadsideamerica.com/tip/").data
      = '\n' :: (indentChars ++ urlChars) from rfl]
    rw [show ("\n            ").data = '\n' :: closeChars from rfl]
    simp [List.append_assoc]
  show tristrip (descriptionSource (.str u)) = _
  rw [tristrip, hsrc, dedent_strip_template u.data hnl hlast]
  rfl

/-- C7 witness: the amended claim at a plain numeric uid. -/
theorem c7_witness :
    (mkWaypoint { uid := .str "2287", longitude := .str "-71.0",
                  latitude := .str "42.0", name := .str "Giant Duck" }).description
      = "https://www.roadsideamerica.com/tip/" ++ "2287" :=
  c7_description_is_stripped_url "2287" (.str "-71.0") (.str "42.0")
    (.str "Giant Duck")
    (by decide)
    (by
      intro c hc
      rw [show ("2287".data.getLast?) = some '7' from rfl] at hc
      obtain rfl : '7' = c := by simpa using hc
      decide)
